import Mathlib

/-!
Shallow embedding, in Lean 4, of the crawling / scraping core of the
`Awaisabbas12/chatbot` repository (files `scraper.py`, `scrape.py`,
`archive.py`, `config.py`), together with theorems settling the frozen
claims about its natural-language specification.

Conventions of the embedding:
* Python strings are modelled as Lean `String`s; character-level Python
  operations (`str.lower`, `str.strip`, slicing, `in`, `endswith`,
  `isalnum`) are re-implemented over `List Char` so that every proof can
  be evaluated by the kernel.  `isalnum` is modelled for ASCII.
* The network is an explicit `World` value: a function from URL to the
  outcome of a (already retried) GET.  The retry loop itself
  (`safe_get` / `fetch`) is modelled separately over a `Transport`
  assigning an outcome to each individual attempt.
* Side effects (fetch issued, record produced, per-source JSON written,
  combined-log append) are reified as an event trace `List Ev`.
* HTML documents are modelled as node trees (`HNode`); `BeautifulSoup`
  string parsing itself is not modelled, only the tree operations the
  extraction heuristics perform on a parsed document.
-/

set_option autoImplicit false

namespace Chatbot

/-! ### Python-style string helpers (character-list based, kernel-evaluable) -/

/-- `listHasPrefix s p` : `p` is a prefix of `s` (Python `s.startswith(p)`). -/
def listHasPrefix : List Char → List Char → Bool
  | _, [] => true
  | [], _ :: _ => false
  | a :: as, b :: bs => a = b && listHasPrefix as bs

/-- `subList s p` : nonempty-pattern substring test (Python `p in s`). -/
def subList : List Char → List Char → Bool
  | s, p =>
    if listHasPrefix s p then true
    else match s with
      | [] => false
      | _ :: rest => subList rest p

/-- Python `pat in s` for a nonempty pattern `pat`. -/
def strContains (s pat : String) : Bool :=
  subList s.data pat.data

/-- Python `s.endswith(pat)`. -/
def strEndsWith (s pat : String) : Bool :=
  listHasPrefix s.data.reverse pat.data.reverse

/-- Python `s.startswith(pat)`. -/
def strStartsWith (s pat : String) : Bool :=
  listHasPrefix s.data pat.data

/-- Python `s.lower()` (ASCII model). -/
def strLower (s : String) : String :=
  String.mk (s.data.map Char.toLower)

/-- Python `s[:n]`. -/
def strTake (n : Nat) (s : String) : String :=
  String.mk (s.data.take n)

/-- The characters Python `str.strip()` removes. -/
def pyIsSpace (c : Char) : Bool :=
  c = ' ' || c = '\t' || c = '\n' || c = '\r' || c = '\x0b' || c = '\x0c'

/-- Python `s.strip()` on a character list. -/
def pyStripL (s : List Char) : List Char :=
  ((s.dropWhile pyIsSpace).reverse.dropWhile pyIsSpace).reverse

/-- Python `s.strip()`. -/
def pyStrip (s : String) : String :=
  String.mk (pyStripL s.data)

/-- Python `c.isalnum()`, restricted to ASCII alphanumerics. -/
def pyIsAlnum (c : Char) : Bool :=
  ('0' ≤ c && c ≤ '9') || ('a' ≤ c && c ≤ 'z') || ('A' ≤ c && c ≤ 'Z')

/-- Split a character list at every occurrence of `c` (Python `s.split(c)`). -/
def splitChar (c : Char) : List Char → List (List Char)
  | [] => [[]]
  | x :: xs =>
    let r := splitChar c xs
    if x = c then [] :: r
    else match r with
      | [] => [[x]]
      | h :: t => (x :: h) :: t

/-! ### A small model of `urllib.parse.urlparse` (scheme / netloc / path / query) -/

/-- The components of a parsed URL that the repository uses. -/
structure UrlParts where
  scheme : String
  netloc : String
  path : String
  query : String
  deriving DecidableEq, Repr

/-- Split off the part before the first `"://"`, if any. -/
def splitScheme : List Char → List Char → Option (List Char × List Char)
  | acc, s =>
    if listHasPrefix s [':', '/', '/'] then some (acc.reverse, s.drop 3)
    else match s with
      | [] => none
      | c :: r => splitScheme (c :: acc) r

/-- Take characters until one of `stops` is hit; return the prefix and the rest. -/
def upToStops (stops : List Char) : List Char → List Char × List Char
  | [] => ([], [])
  | c :: r =>
    if stops.contains c then ([], c :: r)
    else
      let (a, b) := upToStops stops r
      (c :: a, b)

/-- `urlparse` for the absolute `http(s)` URLs the repository handles. -/
def parseUrl (u : String) : UrlParts :=
  match splitScheme [] u.data with
  | none =>
    let (path, rest) := upToStops ['?', '#'] u.data
    let query := match rest with
      | '?' :: r => (upToStops ['#'] r).1
      | _ => []
    ⟨"", "", String.mk path, String.mk query⟩
  | some (sch, rest) =>
    let (net, rest₂) := upToStops ['/', '?', '#'] rest
    let (path, rest₃) := upToStops ['?', '#'] rest₂
    let query := match rest₃ with
      | '?' :: r => (upToStops ['#'] r).1
      | _ => []
    ⟨String.mk sch, String.mk net, String.mk path, String.mk query⟩

/-! ### HTML documents as node trees

A parsed document (a `BeautifulSoup` object) is a list of top-level nodes.
Only the tree operations performed by the source are modelled; parsing an
HTML string into the tree is delegated to the `World`. -/

/-- An HTML node: an element with a tag name, attributes and children, or text. -/
inductive HNode where
  | elem (name : String) (attrs : List (String × String)) (children : List HNode)
  | txt (s : String)
  deriving Repr

mutual

/-- `node.get_text(separator="")`: concatenation of all text in the subtree. -/
def nodeText : HNode → String
  | .txt s => s
  | .elem _ _ cs => listText cs

/-- `get_text(separator="")` over a node list, in document order. -/
def listText : List HNode → String
  | [] => ""
  | c :: cs => nodeText c ++ listText cs

end

mutual

/-- `soup.find(nm)`: first element named `nm` in document (preorder) order. -/
def findTag (nm : String) : List HNode → Option HNode
  | [] => none
  | c :: rest =>
    match findTagNode nm c with
    | some t => some t
    | none => findTag nm rest

/-- `find` within one node: the node itself, then its descendants. -/
def findTagNode (nm : String) : HNode → Option HNode
  | .txt _ => none
  | .elem n a cs => if n = nm then some (.elem n a cs) else findTag nm cs

end

mutual

/-- `soup.find_all(nms)` without a limit: all elements whose name is in `nms`,
in document (preorder) order.  A `limit=k` argument is `(allTags nms d).take k`. -/
def allTags (nms : List String) : List HNode → List HNode
  | [] => []
  | c :: rest => allTagsNode nms c ++ allTags nms rest

/-- `find_all` within one node. -/
def allTagsNode (nms : List String) : HNode → List HNode
  | .txt _ => []
  | .elem n a cs => (if nms.contains n then [HNode.elem n a cs] else []) ++ allTags nms cs

end

mutual

/-- `for s in soup(nms): s.decompose()`: drop every element named in `nms`
(with its whole subtree). -/
def removeTags (nms : List String) : List HNode → List HNode
  | [] => []
  | c :: rest => removeTagsNode nms c ++ removeTags nms rest

/-- `decompose` within one node. -/
def removeTagsNode (nms : List String) : HNode → List HNode
  | .txt s => [.txt s]
  | .elem n a cs => if nms.contains n then [] else [.elem n a (removeTags nms cs)]

end

mutual

/-- The `href` values of all `<a href=...>` anchors, in document order
(`soup.find_all("a", href=True)`). -/
def anchorHrefs : List HNode → List String
  | [] => []
  | c :: rest => anchorHrefsNode c ++ anchorHrefs rest

/-- Anchor hrefs within one node. -/
def anchorHrefsNode : HNode → List String
  | .txt _ => []
  | .elem n a cs =>
    (if n = "a" then
      match a.lookup "href" with
      | some h => [h]
      | none => []
    else []) ++ anchorHrefs cs

end

/-! ### `scraper.py` helpers -/

/-- The last path segment of `path` removed, keeping the trailing slash. -/
def dirOf (path : String) : String :=
  String.mk ((path.data.reverse.dropWhile (fun c => c ≠ '/')).reverse)

/-- A model of `urllib.parse.urljoin` sufficient for absolute and
root-relative hrefs (the claims do not depend on dot-segment resolution). -/
def urljoin (base href : String) : String :=
  if strContains href "://" then href
  else if strStartsWith href "//" then (parseUrl base).scheme ++ ":" ++ href
  else if strStartsWith href "/" then
    (parseUrl base).scheme ++ "://" ++ (parseUrl base).netloc ++ href
  else
    let p := parseUrl base
    p.scheme ++ "://" ++ p.netloc ++ dirOf p.path ++ href

/-- `scraper.py` `discover_links(html, base_url)`: hrefs of all anchors, with
fragment-only and `javascript:` hrefs skipped, resolved against `base_url`,
de-duplicated preserving first-occurrence order. -/
def discoverLinks (soup : List HNode) (baseUrl : String) : List String :=
  let found := (anchorHrefs soup).filterMap (fun h₀ =>
    let h := pyStrip h₀
    if strStartsWith h "#" || strStartsWith (strLower h) "javascript:" then none
    else some (urljoin baseUrl h))
  found.eraseDups

/-- The running best of `scraper.py`'s candidate loop: fold keeping the first
strictly-larger stripped text (`best_len` / `best`, lines 168-174). -/
def bestCandidate (ts : List String) : Nat × String :=
  ts.foldl (fun acc t => if t.length > acc.1 then (t.length, t) else acc) (0, "")

/-- The stripped texts of the `candidates` of `extract_main_article_text`
(line 166): the first 40 `div`/`section`/`article`/`body` elements, each
flattened with `get_text(separator="")` and stripped. -/
def candidateTexts (soup : List HNode) : List String :=
  ((allTags ["div", "section", "article", "body"] soup).take 40).map
    (fun c => pyStrip (nodeText c))

/-- The `texts` list of `extract_main_article_text` (line 180): non-empty
stripped paragraph texts, in document order. -/
def pTexts (soup : List HNode) : List String :=
  ((allTags ["p"] soup).map (fun p => pyStrip (nodeText p))).filter (fun t => t ≠ "")

/-- `scraper.py` `extract_main_article_text(soup)` (lines 157-184). -/
def extractMainArticleText (soup : List HNode) : String :=
  match findTag "article" soup with
  | some a => nodeText a
  | none =>
    match findTag "main" soup with
    | some m => nodeText m
    | none =>
      let best := bestCandidate (candidateTexts soup)
      if best.1 > 200 then best.2
      else
        let ps := allTags ["p"] soup
        if ps.isEmpty then listText soup
        else
          let texts := pTexts soup
          if texts.isEmpty then listText soup
          else String.join (texts.take 50)

/-- `scraper.py` `extract_text_from_html(html)`: decompose
script/style/noscript, then the stripped full-page text and stripped
article text of the cleaned document. -/
def extractTextFromHtml (dom : List HNode) : String × String :=
  let cleaned := removeTags ["script", "style", "noscript"] dom
  (pyStrip (listText cleaned), pyStrip (extractMainArticleText cleaned))

/-- `scraper.py` `github_blob_to_raw(url)`: rewrite a GitHub `blob` view URL
to its `raw.githubusercontent.com` equivalent (regex at line 188). -/
def githubBlobToRaw (url : String) : String :=
  let rest? : Option (List Char) :=
    if strStartsWith url "https://github.com/" then some (url.data.drop 19)
    else if strStartsWith url "http://github.com/" then some (url.data.drop 18)
    else none
  match rest? with
  | none => url
  | some rest =>
    match splitChar '/' rest with
    | user :: repo :: blobSeg :: branch :: p₁ :: ps =>
      if !user.isEmpty && !repo.isEmpty && blobSeg = "blob".data && !branch.isEmpty then
        "https://raw.githubusercontent.com/" ++ String.mk user ++ "/" ++ String.mk repo ++
          "/" ++ String.mk branch ++ "/" ++ String.mk (List.intercalate ['/'] (p₁ :: ps))
      else url
    | _ => url

/-- The rewrite guard at `scraper.py` lines 251-252. -/
def rewriteUrl (url : String) : String :=
  if strContains url "github.com" && strContains url "/blob/" then githubBlobToRaw url
  else url

/-- The outcome of a successful `safe_get`, as much of it as `process_url`
inspects.  `body` is the response body as parsed by `BeautifulSoup`; `pdfText`
models what `extract_text_from_pdf` would extract from the saved payload. -/
structure FetchOk where
  status : Nat
  finalUrl : String
  contentType : String
  body : List HNode
  pdfText : String

/-- The network: outcome of `safe_get(url)` (`none` = all retries failed). -/
def World := String → Option FetchOk

/-- `scraper.py` `is_pdf_response(resp, url)` (lines 109-117). -/
def isPdfResponse (resp : Option FetchOk) (url : String) : Bool :=
  match resp with
  | none => false
  | some r =>
    if strContains (strLower r.contentType) "pdf" then true
    else if strEndsWith (strLower url) ".pdf" then true
    else false

/-- The tunables of `scraper.py` (lines 53-56). -/
structure Cfg where
  followLinks : Bool := true
  maxDepth : Nat := 2
  maxLinksPerPage : Nat := 20
  sameDomainOnly : Bool := false

/-- `scraper.py` `within_domain(root, candidate)` (lines 214-219). -/
def withinDomain (c : Cfg) (root cand : String) : Bool :=
  if !c.sameDomainOnly then true
  else (parseUrl root).netloc == (parseUrl cand).netloc

/-- The binary-extension blacklist at `scraper.py` line 349. -/
def binaryExtSkip (link : String) : Bool :=
  [".jpg", ".png", ".zip", ".exe"].any (fun ext => strEndsWith (strLower link) ext)

/-- The fields of the `result` dict of `process_url` that the claims inspect
(`title`/`published` metadata and local file paths are elided: no claim
depends on them). -/
structure Rec where
  sourceUrl : String
  rootUrl : String
  fetchedUrl : Option String := none
  downloaded : Bool := false
  contentType : Option String := none
  statusCode : Option Nat := none
  fullText : Option String := none
  articleText : Option String := none
  error : Option String := none
  discoveredLinks : List String := []
  childrenCount : Option Nat := none
  deriving DecidableEq, Repr

/-- Observable side effects of `process_url`, in program order: a GET issued
by `safe_get`, a completed `result` dict for a task at a given depth, the
per-source JSON write (line 366), and the combined-log append (line 370). -/
inductive Ev where
  | fetch (url : String)
  | record (depth : Nat) (r : Rec)
  | writeJson (r : Rec)
  | appendLog (r : Rec)
  deriving DecidableEq, Repr

/-- The per-link loop of `process_url` (lines 345-355): children are
processed sequentially, threading the shared visited set; `children_count`
counts the non-`None` child results. -/
def processChildren (step : String → List String → Option Rec × List String × List Ev)
    (skip : String → Bool) : List String → List String → Nat × List String × List Ev
  | [], visited => (0, visited, [])
  | l :: ls, visited =>
    if skip l then processChildren step skip ls visited
    else
      let s := step l visited
      let t := processChildren step skip ls s.2.1
      ((if s.1.isSome then t.1 + 1 else t.1), t.2.1, s.2.2 ++ t.2.2)

/-- `scraper.py` `process_url(url, root_url, depth, visited)` (lines 224-375),
with an explicit fuel for the recursion (any fuel exceeding the remaining
depth budget gives the code's behaviour) and the event trace reified.
Returns (the returned `result` or `None`, the visited set, the trace). -/
def processUrl (w : World) (c : Cfg) :
    Nat → String → String → Nat → List String → Option Rec × List String × List Ev
  | 0, _, _, _, visited => (none, visited, [])
  | fuel + 1, url, root, depth, visited =>
    if url ∈ visited then (none, visited, [])
    else
      let visited' := visited ++ [url]
      let url' := rewriteUrl url
      match w url' with
      | none =>
        -- scraper.py:256-257 — `result["error"] = "failed_to_fetch"; return result`.
        -- The per-source JSON write and combined-log append are skipped.
        let r0 : Rec := { sourceUrl := url, rootUrl := root, error := some "failed_to_fetch" }
        (some r0, visited', [.fetch url', .record depth r0])
      | some resp =>
        let ct := strLower resp.contentType
        if isPdfResponse (some resp) url' then
          let r0 : Rec := { sourceUrl := url, rootUrl := root,
                            fetchedUrl := some resp.finalUrl, statusCode := some resp.status,
                            contentType := some ct, downloaded := true,
                            fullText := some resp.pdfText }
          (some r0, visited', [.fetch url', .record depth r0, .writeJson r0, .appendLog r0])
        else
          let ft := extractTextFromHtml resp.body
          let links := discoverLinks resp.body resp.finalUrl
          let stored := links.take c.maxLinksPerPage
          let child :=
            if c.followLinks ∧ depth < c.maxDepth then
              let t := processChildren
                (fun l vis => processUrl w c fuel l root (depth + 1) vis)
                (fun l => !withinDomain c root l || binaryExtSkip l) stored visited'
              (some t.1, t.2.1, t.2.2)
            else (none, visited', ([] : List Ev))
          let r0 : Rec := { sourceUrl := url, rootUrl := root,
                            fetchedUrl := some resp.finalUrl, statusCode := some resp.status,
                            contentType := some ct, downloaded := true,
                            fullText := some ft.1, articleText := some ft.2,
                            discoveredLinks := stored, childrenCount := child.1 }
          (some r0, child.2.1,
            [Ev.fetch url'] ++ child.2.2 ++ [.record depth r0, .writeJson r0, .appendLog r0])

/-- The seed loop of `scraper.py` `main(urls)` (lines 380-389): one shared
visited set, every seed processed at depth 0 with itself as root. -/
def mainAux (w : World) (c : Cfg) (fuel : Nat) :
    List String → List String → List Rec × List String × List Ev
  | [], v => ([], v, [])
  | u :: us, v =>
    let s := processUrl w c fuel u u 0 v
    let t := mainAux w c fuel us s.2.1
    ((match s.1 with | some r => [r] | none => []) ++ t.1, t.2.1, s.2.2 ++ t.2.2)

/-- `scraper.py` `main(urls)`: fresh empty visited set, then the seed loop. -/
def mainCrawl (w : World) (c : Cfg) (fuel : Nat) (urls : List String) :
    List Rec × List String × List Ev :=
  mainAux w c fuel urls []

/-! ### `json.dumps(..., ensure_ascii=False)` (compact model) -/

/-- Lower-case hex digit. -/
def hexDigit (n : Nat) : Char :=
  if n < 10 then Char.ofNat ('0'.toNat + n) else Char.ofNat ('a'.toNat + n - 10)

/-- The escape sequence `json.dumps` emits for one character
(`ensure_ascii=False`: non-ASCII kept verbatim, control characters escaped). -/
def escChar (c : Char) : List Char :=
  if c = '"' then ['\\', '"']
  else if c = '\\' then ['\\', '\\']
  else if c = '\n' then ['\\', 'n']
  else if c = '\r' then ['\\', 'r']
  else if c = '\t' then ['\\', 't']
  else if c = '\x08' then ['\\', 'b']
  else if c = '\x0c' then ['\\', 'f']
  else if c.toNat < 32 then ['\\', 'u', '0', '0', hexDigit (c.toNat / 16), hexDigit (c.toNat % 16)]
  else [c]

/-- JSON string-content escaping. -/
def jsonEscape (s : String) : String :=
  String.mk (s.data.map escChar).flatten

/-- JSON values (what the records serialized by this repository contain). -/
inductive JVal where
  | str (s : String)
  | num (n : Int)
  | bool (b : Bool)
  | null
  | arr (xs : List JVal)
  | obj (kvs : List (String × JVal))

mutual

/-- `json.dumps(v, ensure_ascii=False)` with the default separators. -/
def dumpJ : JVal → String
  | .str s => "\"" ++ jsonEscape s ++ "\""
  | .num n => toString n
  | .bool b => if b then "true" else "false"
  | .null => "null"
  | .arr xs => "[" ++ dumpArr xs ++ "]"
  | .obj kvs => "\x7b" ++ dumpObj kvs ++ "\x7d"

/-- Array elements joined by `", "`. -/
def dumpArr : List JVal → String
  | [] => ""
  | [x] => dumpJ x
  | x :: y :: t => dumpJ x ++ ", " ++ dumpArr (y :: t)

/-- Object entries `"key": value` joined by `", "`. -/
def dumpObj : List (String × JVal) → String
  | [] => ""
  | [kv] => "\"" ++ jsonEscape kv.1 ++ "\": " ++ dumpJ kv.2
  | kv :: y :: t => "\"" ++ jsonEscape kv.1 ++ "\": " ++ dumpJ kv.2 ++ ", " ++ dumpObj (y :: t)

end

/-- `Option String` as a JSON field value. -/
def optStr : Option String → JVal
  | none => .null
  | some s => .str s

/-- `Option Nat` as a JSON field value. -/
def optNat : Option Nat → JVal
  | none => .null
  | some n => .num n

/-- The `result` dict of `process_url` as a JSON object, in insertion order
(modelled fields only; `children_count`, when present, is inserted last,
as at `scraper.py` line 357). -/
def recJson (r : Rec) : JVal :=
  .obj ([("source_url", .str r.sourceUrl), ("root_url", .str r.rootUrl),
        ("fetched_url", optStr r.fetchedUrl), ("downloaded", .bool r.downloaded),
        ("content_type", optStr r.contentType), ("status_code", optNat r.statusCode),
        ("full_text", optStr r.fullText), ("article_text", optStr r.articleText),
        ("error", optStr r.error),
        ("discovered_links", .arr (r.discoveredLinks.map JVal.str))] ++
      (match r.childrenCount with
        | none => []
        | some n => [("children_count", JVal.num n)]))

/-- The exact string appended to `combined.jsonl` per record by
`scraper.py` line 371: `json.dumps(result, ensure_ascii=False) + ''`. -/
def combinedLogChunk (r : Rec) : String :=
  dumpJ (recJson r) ++ ""

/-- The exact string appended per record by `scrape.py`
`append_jsonl_record` (lines 77-80): `json.dumps(record, ...) + "\n"`. -/
def appendJsonlChunk (j : JVal) : String :=
  dumpJ j ++ "\n"

/-! ### The retry model of `safe_get` (`scraper.py`) and `fetch` (`scrape.py`) -/

/-- A response as seen by the retry loops (only the status matters there). -/
structure RespT where
  status : Nat
  deriving DecidableEq, Repr

/-- The transport: the outcome of the `i`-th individual `GET` attempt
(`none` = a transport-level exception was raised). -/
def Transport := Nat → Option RespT

/-- `requests` `Response.raise_for_status()` raises for 4xx/5xx statuses. -/
def raisesForStatus (r : RespT) : Bool :=
  decide (400 ≤ r.status ∧ r.status < 600)

/-- One `session.get` + `raise_for_status` attempt: the response if the GET
succeeded with a non-error status, otherwise a caught exception. -/
def attemptOk (t : Transport) (i : Nat) : Option RespT :=
  match t i with
  | none => none
  | some r => if raisesForStatus r then none else some r

/-- The retry loop of `scraper.py` `safe_get` (lines 96-106): `left` attempts
remaining, `i` the current attempt index; returns the response (or `None`
after exhaustion) together with the list of backoff sleeps performed
(`time.sleep(1 + i * 2)` after each failed attempt). -/
def safeGetGo (t : Transport) : Nat → Nat → Option RespT × List Nat
  | 0, _ => (none, [])
  | left + 1, i =>
    match attemptOk t i with
    | some r => (some r, [])
    | none =>
      let s := safeGetGo t left (i + 1)
      (s.1, (1 + i * 2) :: s.2)

/-- `REQUEST_RETRIES` (`scraper.py` line 51). -/
def REQUEST_RETRIES : Nat := 3

/-- `scraper.py` `safe_get(url)`: up to `REQUEST_RETRIES` attempts. -/
def safeGet (t : Transport) : Option RespT × List Nat :=
  safeGetGo t REQUEST_RETRIES 0

/-- `scrape.py` `fetch(url)` (lines 38-45): a single attempt, `None` on any
exception (including `raise_for_status`); never re-raises. -/
def fetchScrape (t : Transport) : Option RespT :=
  match t 0 with
  | none => none
  | some r => if raisesForStatus r then none else some r

/-! ### `scrape.py` record pipeline -/

/-- `scrape.py` `safe_filename` (lines 21-22): keep alphanumerics and
`- _ . + =`, strip, fall back to `"file"`. -/
def safeFilenameScrape (s : String) : String :=
  let kept := s.data.filter (fun c =>
    pyIsAlnum c || c = '-' || c = '_' || c = '.' || c = '+' || c = '=')
  let t := pyStripL kept
  if t.isEmpty then "file" else String.mk t

/-- `archive.py` `safe_filename` (lines 32-33): keep alphanumerics and
`- _ . + ` and space, strip, fall back to `"file"`. -/
def safeFilenameArchive (s : String) : String :=
  let kept := s.data.filter (fun c =>
    pyIsAlnum c || c = '-' || c = '_' || c = '.' || c = '+' || c = ' ')
  let t := pyStripL kept
  if t.isEmpty then "file" else String.mk t

/-- A response as `scrape.py` inspects one after `fetch` succeeded.
`text` is `resp.text` (also standing for the `resp.content` bytes);
`cleanText` models `html_to_text(resp.text)` (HTML string parsing is
delegated to the world). -/
structure SResp where
  contentType : String
  text : String
  cleanText : String

/-- The network as `scrape.py`'s single-attempt `fetch` sees it. -/
def SWorld := String → Option SResp

/-- The JSONL records of `scrape.py`, restricted to the fields the claims
inspect (`brain`, `domain`, `fetched_at` and file paths are elided). -/
structure SRecord where
  url : String
  status : String
  typ : Option String := none
  ctHeader : Option String := none
  text : Option String := none
  error : Option String := none
  deriving DecidableEq, Repr

/-- Observable side effects of `scrape.py`: a JSONL append and a raw binary
file write (content written unmodified). -/
inductive SEv where
  | append (r : SRecord)
  | writeFile (url : String) (content : String)
  deriving DecidableEq, Repr

/-- `scrape.py` `is_archive_search(url)` (lines 87-89). -/
def isArchiveSearch (url : String) : Bool :=
  (parseUrl url).netloc == "archive.org" && (parseUrl url).path == "/search"

/-- The HTML test of `scrape.py` (lines 115 and 313): content-type contains
`text/html`, or the first 500 characters of the body contain `<html`
case-insensitively.  `ct` is the already-lowercased header. -/
def isHtmlHeuristic (ct body : String) : Bool :=
  strContains ct "text/html" || strContains (strLower (strTake 500 body)) "<html"

/-- What `scrape_url_for_brain` does: delegate archive searches, else emit
events for one URL. -/
inductive SOut where
  | archive
  | events (es : List SEv)
  deriving DecidableEq, Repr

/-- `scrape.py` `scrape_url_for_brain(brain, url)` (lines 286-358); the
archive-search branch is modelled separately by `scrapeArchiveSearch`, and
local-write failures are not modelled (writes succeed). -/
def scrapeUrlForBrain (w : SWorld) (url : String) : SOut :=
  if isArchiveSearch url then .archive
  else
    match w url with
    | none => .events [.append { url := url, status := "error", error := some "request_failed" }]
    | some resp =>
      let ct := strLower resp.contentType
      if isHtmlHeuristic ct resp.text then
        .events [.append { url := url, status := "ok", typ := some "html",
                           ctHeader := some ct, text := some resp.cleanText }]
      else
        .events [.writeFile url resp.text,
                 .append { url := url, status := "ok", typ := some "binary",
                           ctHeader := some ct }]

/-! ### `scrape.py` `scrape_archive_search` (the Paginated-Search Controller) -/

/-- Code-point lexicographic strict order on character lists (the order
Python `sorted` uses on strings). -/
def listLtChars : List Char → List Char → Bool
  | _, [] => false
  | [], _ :: _ => true
  | a :: as, b :: bs =>
    if a.toNat < b.toNat then true
    else if b.toNat < a.toNat then false
    else listLtChars as bs

/-- Insertion into an ascending list (code-point order, as Python `sorted`). -/
def insertSorted (x : String) : List String → List String
  | [] => [x]
  | y :: ys => if listLtChars x.data y.data then x :: y :: ys else y :: insertSorted x ys

/-- Python `sorted` on a set of strings, modelled on its deduplicated list. -/
def sortStrings (l : List String) : List String :=
  l.foldr insertSorted []

/-- The page URL built at `scrape.py` lines 240-243:
`base_root?base_query&page=N`, or `base_root?page=N` without a query. -/
def pageUrl (baseRoot baseQuery : String) (page : Nat) : String :=
  if baseQuery ≠ "" then baseRoot ++ "?" ++ baseQuery ++ "&page=" ++ toString page
  else baseRoot ++ "?page=" ++ toString page

/-- Lines 254-259 + 265: the set of absolutized `/details/` hrefs of a result
page, iterated in `sorted` order. -/
def itemLinksOf (hrefs : List String) : List String :=
  sortStrings (((hrefs.filter (fun h => strStartsWith h "/details/")).map
    (fun h => urljoin "https://archive.org" h)).eraseDups)

/-- The per-page item loop (lines 265-274): `scraped` counts items handed to
`scrape_archive_item`, `seen` is `seen_items`, `acc` the scraped items in
order.  Stops early when the quota is reached. -/
def processItems (maxItems : Nat) : List String → Nat → List String → List String →
    Nat × List String × List String
  | [], scraped, seen, acc => (scraped, seen, acc)
  | u :: rest, scraped, seen, acc =>
    if maxItems ≤ scraped then (scraped, seen, acc)
    else if u ∈ seen then processItems maxItems rest scraped seen acc
    else processItems maxItems rest (scraped + 1) (seen ++ [u]) (acc ++ [u])

/-- Why the page loop stopped. -/
inductive StopReason where
  | fetchFail
  | noItems
  | quota
  deriving DecidableEq, Repr

/-- The page loop of `scrape_archive_search` (lines 239-277), fuelled:
`none` means the `while` loop was still running after `fuel` iterations.
The page world maps a page URL to the anchors of the fetched page
(`none` = `fetch` failed). -/
def archiveLoop (w : String → Option (List HNode)) (baseRoot baseQuery : String)
    (maxItems : Nat) : Nat → Nat → Nat → List String → List String →
    Option (StopReason × Nat × List String)
  | 0, _, _, _, _ => none
  | fuel + 1, page, scraped, seen, acc =>
    if maxItems ≤ scraped then some (.quota, scraped, acc)
    else
      match w (pageUrl baseRoot baseQuery page) with
      | none => some (.fetchFail, scraped, acc)
      | some dom =>
        let items := itemLinksOf (anchorHrefs dom)
        if items.isEmpty then some (.noItems, scraped, acc)
        else
          let t := processItems maxItems items scraped seen acc
          archiveLoop w baseRoot baseQuery maxItems fuel (page + 1) t.1 t.2.1 t.2.2

/-- `scrape.py` `scrape_archive_search(brain, search_url, max_items)`
(lines 221-279): derive `base_root`/`base_query` from the search URL, then
run the page loop from page 1 with empty state. -/
def scrapeArchiveSearch (w : String → Option (List HNode)) (searchUrl : String)
    (maxItems fuel : Nat) : Option (StopReason × Nat × List String) :=
  let p := parseUrl searchUrl
  archiveLoop w (p.scheme ++ "://" ++ p.netloc ++ p.path) p.query maxItems fuel 1 0 [] []

/-! ### Spec-side helper definitions used to state the claims -/

/-- The `source_url`s of the `record` events of a trace, in order. -/
def recordSources (evs : List Ev) : List String :=
  evs.filterMap (fun e => match e with | .record _ r => some r.sourceUrl | _ => none)

/-- Count of persistence events (per-source JSON writes and combined-log
appends) in a trace. -/
def persistCount (evs : List Ev) : Nat :=
  evs.countP (fun e => match e with | .writeJson _ => true | .appendLog _ => true | _ => false)

/-- The items of `l` not in `seen`, first occurrences only, in order — the
items a result page contributes beyond those already seen. -/
def newOnes : List String → List String → List String
  | [], _ => []
  | u :: rest, seen => if u ∈ seen then newOnes rest seen else u :: newOnes rest (seen ++ [u])

/-- The largest length among a list of strings (0 when empty) — the spec's
"largest flattened text length". -/
def maxLenOf (ts : List String) : Nat :=
  (ts.map String.length).foldr max 0

/-- The `result` dict of a task whose fetch failed. -/
def failRecOf (url root : String) : Rec :=
  { sourceUrl := url, rootUrl := root, error := some "failed_to_fetch" }

/-- The `result` dict of a task routed down the PDF branch. -/
def pdfRecOf (url root : String) (resp : FetchOk) : Rec :=
  { sourceUrl := url, rootUrl := root, fetchedUrl := some resp.finalUrl,
    statusCode := some resp.status, contentType := some (strLower resp.contentType),
    downloaded := true, fullText := some resp.pdfText }

/-- The `result` dict of a task treated as HTML, with `children_count` as
computed by the (possibly skipped) recursion. -/
def htmlRecOf (url root : String) (c : Cfg) (resp : FetchOk) (cnt : Option Nat) : Rec :=
  { sourceUrl := url, rootUrl := root, fetchedUrl := some resp.finalUrl,
    statusCode := some resp.status, contentType := some (strLower resp.contentType),
    downloaded := true, fullText := some (extractTextFromHtml resp.body).1,
    articleText := some (extractTextFromHtml resp.body).2,
    discoveredLinks := (discoverLinks resp.body resp.finalUrl).take c.maxLinksPerPage,
    childrenCount := cnt }

/-- The per-link skip test of `process_url` (lines 346-350). -/
def childSkip (c : Cfg) (root : String) : String → Bool :=
  fun l => !withinDomain c root l || binaryExtSkip l

/-- The visited-set / record-dedup invariant relating an initial visited
set to the visited set and trace a (sub)crawl produces: the visited set
only grows, the record sources are pairwise distinct, and every record's
source URL was newly claimed during the subcrawl. -/
def DedupInv (v v' : List String) (evs : List Ev) : Prop :=
  v ⊆ v' ∧ (recordSources evs).Nodup ∧ ∀ s ∈ recordSources evs, s ∉ v ∧ s ∈ v'

/-! ### Concrete worlds and values used by witnesses and counterexamples -/

/-- A network on which every `safe_get` fails (all retries exhausted). -/
def wAllFail : World := fun _ => none

/-- The `result` dict `process_url` returns for a task whose fetch failed. -/
def failRec : Rec :=
  { sourceUrl := "https://example.com/a", rootUrl := "https://example.com/a",
    error := some "failed_to_fetch" }

/-- A GitHub `blob` view URL. -/
def blobU : String := "http://github.com/u/r/blob/b/f"

/-- The raw-content equivalent of `blobU`. -/
def rawU : String := "https://raw.githubusercontent.com/u/r/b/f"

/-- A world whose root page links both the `blob` URL and its raw
equivalent; the raw URL serves plain text. -/
def wBlob : World := fun u =>
  if u = "http://s/" then
    some ⟨200, "http://s/", "text/html",
      [.elem "a" [("href", blobU)] [], .elem "a" [("href", rawU)] []], ""⟩
  else if u = rawU then some ⟨200, rawU, "text/plain", [], ""⟩
  else none

/-- A response whose requested URL ended in `.pdf` but which redirected to a
non-`.pdf` final URL with a non-PDF content type. -/
def respDoc : FetchOk := ⟨200, "http://h/doc", "text/html", [.elem "p" [] [.txt "hi"]], "PDFTEXT"⟩

/-- The world serving `respDoc` for `http://h/doc.pdf`. -/
def wWrongPdf : World := fun u => if u = "http://h/doc.pdf" then some respDoc else none

/-- A PNG response: content type `image/png`, body without `<html`. -/
def respPng : FetchOk := ⟨200, "http://h/img", "image/png", [.txt "PNGDATA"], ""⟩

/-- The world serving `respPng` for `http://h/img`. -/
def wPng : World := fun u => if u = "http://h/img" then some respPng else none

/-- A transport whose first attempt raises and whose later attempts return
HTTP 200. -/
def tFlaky : Transport := fun i => if i = 0 then none else some ⟨200⟩

/-- A `scrape.py` network on which every fetch fails. -/
def swFail : SWorld := fun _ => none

/-- A `scrape.py` network: a PNG at one URL, an HTML page at another. -/
def swMix : SWorld := fun u =>
  if u = "http://h/p" then some ⟨"Image/PNG", "RAWPNGBYTES", "clean"⟩
  else if u = "http://h/t" then some ⟨"Text/HTML; charset=utf-8", "<html><body>x</body></html>", "x"⟩
  else none

/-- A result-page world on which every page links the same single item. -/
def wRepeat : String → Option (List HNode) := fun _ =>
  some [.elem "a" [("href", "/details/A")] []]

/-- Result page 1: items `a` and `b`. -/
def dPage1 : List HNode :=
  [.elem "a" [("href", "/details/a")] [], .elem "a" [("href", "/details/b")] []]

/-- Result page 2: items `b` and `c`. -/
def dPage2 : List HNode :=
  [.elem "a" [("href", "/details/b")] [], .elem "a" [("href", "/details/c")] []]

/-- Result page 3: no item links. -/
def dPage3 : List HNode := [.elem "a" [("href", "/about")] []]

/-- Result pages: items `a`,`b` on page 1, `b`,`c` on page 2, none on page 3. -/
def wPages : String → Option (List HNode) := fun u =>
  if u = "https://archive.org/search?query=q&page=1" then some dPage1
  else if u = "https://archive.org/search?query=q&page=2" then some dPage2
  else if u = "https://archive.org/search?query=q&page=3" then some dPage3
  else none

/-- A document containing only paragraphs under `body` (no `article`, no
`main`, no candidate text above 200 characters). -/
def soupPs : List HNode :=
  [.elem "body" [] [.elem "p" [] [.txt " one "], .elem "p" [] [.txt "  "], .elem "p" [] [.txt "two"]]]

/-- A serialized record whose text field contains a raw newline. -/
def htmlJRec : JVal := .obj [("url", .str "https://x/y"), ("text", .str "line1\nline2")]

/-- First of two records appended consecutively to the combined log. -/
def logRecA : Rec := { sourceUrl := "https://example.com/a", rootUrl := "https://example.com/a" }

/-- Second of two records appended consecutively to the combined log. -/
def logRecB : Rec := { sourceUrl := "https://example.com/b", rootUrl := "https://example.com/b" }

/-- The record `process_url` produces for `http://h/doc.pdf` on `wWrongPdf`:
routed down the PDF path although the final URL and header carry no PDF
signal. -/
def docRec : Rec :=
  { sourceUrl := "http://h/doc.pdf", rootUrl := "http://h/doc.pdf",
    fetchedUrl := some "http://h/doc", statusCode := some 200,
    contentType := some "text/html", downloaded := true, fullText := some "PDFTEXT" }

/-- The record `process_url` produces for the PNG response on `wPng`:
treated as HTML (text-extracted), not as opaque binary. -/
def pngRec : Rec :=
  { sourceUrl := "http://h/img", rootUrl := "http://h/img",
    fetchedUrl := some "http://h/img", statusCode := some 200,
    contentType := some "image/png", downloaded := true,
    fullText := some "PNGDATA", articleText := some "PNGDATA", childrenCount := some 0 }

/-! ## Theorems -/

/-! ### C1 — one Record per task, but failure skips persistence (code bug) -/

/-- C1: a fetch that fails all retries produces exactly one `Record`, with
`error="failed_to_fetch"` and no full text — but, contrary to the claim,
`process_url` returns at `scraper.py:257` before the per-source JSON write
and the combined-log append, so the failed Record is never persisted: the
trace contains the fetch and the record and zero persistence events. -/
theorem c1_failed_fetch_record_not_persisted :
    processUrl wAllFail {} 3 "https://example.com/a" "https://example.com/a" 0 [] =
      (some failRec, ["https://example.com/a"],
        [.fetch "https://example.com/a", .record 0 failRec]) ∧
    failRec.error = some "failed_to_fetch" ∧
    failRec.fullText = none ∧
    persistCount (processUrl wAllFail {} 3 "https://example.com/a"
      "https://example.com/a" 0 []).2.2 = 0 := by
  refine ⟨by decide, rfl, rfl, by decide⟩

/-! ### C7 — the combined-log append is not newline-terminated (code bug) -/

set_option maxRecDepth 8000 in
/-- C7: `scrape.py`'s `append_jsonl_record` does write a single
newline-terminated line per record — the serialized record contains no raw
newline (control characters are escaped) and the chunk ends in exactly one
`\n` — but `scraper.py`'s combined-log append (line 371) concatenates the
JSON with `''` instead of `'\n'`: two consecutively appended records
contain no newline at all, so they run together on one line. -/
theorem c7_combined_log_missing_newline :
    strEndsWith (appendJsonlChunk htmlJRec) "\n" = true ∧
    (appendJsonlChunk htmlJRec).data.count '\n' = 1 ∧
    (combinedLogChunk logRecA ++ combinedLogChunk logRecB).data.count '\n' = 0 := by
  refine ⟨by decide, by decide, by decide⟩

/-! ### C10 — `safe_filename` always yields a safe nonempty name -/

/-- Characters surviving `pyStripL` were in the original list. -/
theorem mem_pyStripL {c : Char} {l : List Char} (h : c ∈ pyStripL l) : c ∈ l := by
  unfold pyStripL at h
  rw [List.mem_reverse] at h
  replace h := (List.dropWhile_sublist _).subset h
  rw [List.mem_reverse] at h
  exact (List.dropWhile_sublist _).subset h

/-- Shared argument for both `safe_filename` variants: filtering by
`allowed`, stripping, and falling back to `"file"` yields a nonempty string
of allowed characters, equal to `"file"` when nothing survives the filter. -/
theorem filterStripSpec (allowed : Char → Bool) (s : String)
    (hf : ∀ c ∈ ("file" : String).data, allowed c = true) :
    (if (pyStripL (s.data.filter allowed)).isEmpty then "file"
      else String.mk (pyStripL (s.data.filter allowed))) ≠ "" ∧
    (∀ c ∈ (if (pyStripL (s.data.filter allowed)).isEmpty then "file"
      else String.mk (pyStripL (s.data.filter allowed))).data, allowed c = true) ∧
    (s.data.filter allowed = [] →
      (if (pyStripL (s.data.filter allowed)).isEmpty then "file"
        else String.mk (pyStripL (s.data.filter allowed))) = "file") := by
  by_cases ht : (pyStripL (s.data.filter allowed)).isEmpty
  · rw [if_pos ht]
    exact ⟨by decide, hf, fun _ => rfl⟩
  · rw [if_neg ht]
    refine ⟨?_, ?_, ?_⟩
    · intro he
      apply ht
      have : (String.mk (pyStripL (s.data.filter allowed))).data = ("" : String).data := by
        rw [he]
      simpa [List.isEmpty_iff] using this
    · intro c hc
      exact (List.mem_filter.mp (mem_pyStripL hc)).2
    · intro he
      exact absurd (by simp [he, pyStripL]) ht

/-- C10: both `safe_filename` variants (`scrape.py` line 21 and `archive.py`
line 32) return a nonempty string whose characters are alphanumeric or in
the module's allowed punctuation set — in particular containing no path
separator, so the derived filename is a valid nonempty path component —
and fall back to the literal `"file"` when no character survives the
filter. -/
theorem c10_safe_filename_valid_component (s : String) :
    (safeFilenameScrape s ≠ "" ∧
      (∀ c ∈ (safeFilenameScrape s).data,
        (pyIsAlnum c || c = '-' || c = '_' || c = '.' || c = '+' || c = '=') = true) ∧
      '/' ∉ (safeFilenameScrape s).data ∧
      (s.data.filter (fun c =>
          pyIsAlnum c || c = '-' || c = '_' || c = '.' || c = '+' || c = '=') = [] →
        safeFilenameScrape s = "file")) ∧
    (safeFilenameArchive s ≠ "" ∧
      (∀ c ∈ (safeFilenameArchive s).data,
        (pyIsAlnum c || c = '-' || c = '_' || c = '.' || c = '+' || c = ' ') = true) ∧
      '/' ∉ (safeFilenameArchive s).data ∧
      (s.data.filter (fun c =>
          pyIsAlnum c || c = '-' || c = '_' || c = '.' || c = '+' || c = ' ') = [] →
        safeFilenameArchive s = "file")) := by
  have h1 := filterStripSpec
    (fun c => pyIsAlnum c || c = '-' || c = '_' || c = '.' || c = '+' || c = '=') s (by decide)
  have h2 := filterStripSpec
    (fun c => pyIsAlnum c || c = '-' || c = '_' || c = '.' || c = '+' || c = ' ') s (by decide)
  refine ⟨⟨h1.1, h1.2.1, ?_, h1.2.2⟩, ⟨h2.1, h2.2.1, ?_, h2.2.2⟩⟩
  · intro h
    exact absurd (h1.2.1 '/' h) (by decide)
  · intro h
    exact absurd (h2.2.1 '/' h) (by decide)

/-- C10 witness: on an input with no surviving character both variants fall
back to `"file"`. -/
theorem c10_safe_filename_valid_component_witness :
    safeFilenameScrape "@!?" = "file" ∧ safeFilenameArchive "@!?" = "file" :=
  ⟨(c10_safe_filename_valid_component "@!?").1.2.2.2 (by decide),
   (c10_safe_filename_valid_component "@!?").2.2.2.2 (by decide)⟩

/-! ### C8 — retry behaviour (corrected: `scrape.py` never retries) -/

/-- C8 counterexample: the claim says every fetch retries up to 3 attempts
and failures are recorded as `"failed_to_fetch"`.  On a transport whose
first attempt fails and second succeeds, `scrape.py`'s `fetch` returns
`None` — it never issues a second attempt — while `scraper.py`'s
`safe_get` recovers; moreover `scrape_url_for_brain` labels its fetch
failures `"request_failed"`, not `"failed_to_fetch"`. -/
theorem c8_scrape_fetch_never_retries :
    fetchScrape tFlaky = none ∧
    (safeGet tFlaky).1 = some ⟨200⟩ ∧
    scrapeUrlForBrain swFail "https://example.com/x" =
      .events [.append { url := "https://example.com/x", status := "error",
                         error := some "request_failed" }] := by
  refine ⟨rfl, rfl, rfl⟩

/-- C8 amended: `scraper.py`'s `safe_get` makes up to `REQUEST_RETRIES = 3`
attempts, succeeding with the first attempt that neither raises nor has an
HTTP error status, sleeping a strictly increasing backoff (`1 + 2*i`) after
each failure, and returning `None` (never raising) after exhaustion — in
which case `process_url` records `error="failed_to_fetch"` with no body.
`scrape.py`'s `fetch` instead makes exactly one attempt. -/
theorem c8_retry_behaviour (t : Transport) :
    ((safeGet t).1 = none ↔
      attemptOk t 0 = none ∧ attemptOk t 1 = none ∧ attemptOk t 2 = none) ∧
    (∀ r, (safeGet t).1 = some r →
      attemptOk t 0 = some r ∨
      (attemptOk t 0 = none ∧ attemptOk t 1 = some r) ∨
      (attemptOk t 0 = none ∧ attemptOk t 1 = none ∧ attemptOk t 2 = some r)) ∧
    List.Chain' (· < ·) (safeGet t).2 ∧
    (safeGet t).2.length ≤ 3 ∧
    fetchScrape t = attemptOk t 0 ∧
    (∀ (w : World) (c : Cfg) (fuel : Nat) (url root : String) (depth : Nat) (v : List String),
      url ∉ v → w (rewriteUrl url) = none →
      processUrl w c (fuel + 1) url root depth v =
        (some { sourceUrl := url, rootUrl := root, error := some "failed_to_fetch" },
         v ++ [url],
         [.fetch (rewriteUrl url),
          .record depth { sourceUrl := url, rootUrl := root, error := some "failed_to_fetch" }])) := by
  have hfs : fetchScrape t = attemptOk t 0 := by
    unfold fetchScrape attemptOk
    rfl
  have hfail : ∀ (w : World) (c : Cfg) (fuel : Nat) (url root : String) (depth : Nat)
      (v : List String), url ∉ v → w (rewriteUrl url) = none →
      processUrl w c (fuel + 1) url root depth v =
        (some { sourceUrl := url, rootUrl := root, error := some "failed_to_fetch" },
         v ++ [url],
         [.fetch (rewriteUrl url),
          .record depth { sourceUrl := url, rootUrl := root, error := some "failed_to_fetch" }]) := by
    intro w c fuel url root depth v hv hw
    simp [processUrl, hv, hw]
  have key : ((safeGet t).1 = none ↔
      attemptOk t 0 = none ∧ attemptOk t 1 = none ∧ attemptOk t 2 = none) ∧
      (∀ r, (safeGet t).1 = some r →
        attemptOk t 0 = some r ∨
        (attemptOk t 0 = none ∧ attemptOk t 1 = some r) ∨
        (attemptOk t 0 = none ∧ attemptOk t 1 = none ∧ attemptOk t 2 = some r)) ∧
      List.Chain' (· < ·) (safeGet t).2 ∧
      (safeGet t).2.length ≤ 3 := by
    rcases h0 : attemptOk t 0 with _ | r0 <;> rcases h1 : attemptOk t 1 with _ | r1 <;>
      rcases h2 : attemptOk t 2 with _ | r2 <;>
      simp [safeGet, safeGetGo, REQUEST_RETRIES, h0, h1, h2]
  exact ⟨key.1, key.2.1, key.2.2.1, key.2.2.2, hfs, hfail⟩

/-- C8 amended, witness: applying the theorem to the flaky transport shows
its `safe_get` result comes from the second attempt. -/
theorem c8_retry_behaviour_witness :
    attemptOk tFlaky 0 = some ⟨200⟩ ∨
    (attemptOk tFlaky 0 = none ∧ attemptOk tFlaky 1 = some ⟨200⟩) ∨
    (attemptOk tFlaky 0 = none ∧ attemptOk tFlaky 1 = none ∧ attemptOk tFlaky 2 = some ⟨200⟩) :=
  (c8_retry_behaviour tFlaky).2.1 ⟨200⟩ rfl

/-! ### C3 — PDF routing (corrected: the requested URL is used, not the final URL) -/

/-- C3 counterexample: a request for `http://h/doc.pdf` is answered (after a
redirect) from final URL `http://h/doc` with content type `text/html`.
The claim's rule — header contains "pdf", else the final URL path ends in
`.pdf` — classifies it as not-PDF, yet `process_url` passes the requested
URL to `is_pdf_response` (`scraper.py:265`) and routes it down the PDF
path: the produced record carries the PDF-extracted text and no article
text. -/
theorem c3_final_url_counterexample :
    strContains (strLower respDoc.contentType) "pdf" = false ∧
    strEndsWith (strLower respDoc.finalUrl) ".pdf" = false ∧
    isPdfResponse (some respDoc) (rewriteUrl "http://h/doc.pdf") = true ∧
    (processUrl wWrongPdf {} 3 "http://h/doc.pdf" "http://h/doc.pdf" 0 []).1 = some docRec ∧
    docRec.articleText = none := by
  refine ⟨by decide, by decide, by decide, by decide, rfl⟩

/-- C3 amended: a successfully fetched response is routed to the PDF
extraction path (its record has no `article_text`) if and only if
`is_pdf_response` accepts it for the *requested* URL (after the blob→raw
rewrite, before redirects), and that test is: the content-type header
contains "pdf" or, failing that, the whole lowercased requested URL ends
with ".pdf" — the post-redirect final URL is not consulted. -/
theorem c3_pdf_routing (w : World) (c : Cfg) (fuel : Nat) (url root : String)
    (depth : Nat) (v : List String) (resp : FetchOk) (r0 : Rec)
    (hv : url ∉ v) (hw : w (rewriteUrl url) = some resp)
    (hr : (processUrl w c (fuel + 1) url root depth v).1 = some r0) :
    (r0.articleText = none ↔ isPdfResponse (some resp) (rewriteUrl url) = true) ∧
    isPdfResponse (some resp) (rewriteUrl url) =
      (strContains (strLower resp.contentType) "pdf" ||
        strEndsWith (strLower (rewriteUrl url)) ".pdf") := by
  have hrule : isPdfResponse (some resp) (rewriteUrl url) =
      (strContains (strLower resp.contentType) "pdf" ||
        strEndsWith (strLower (rewriteUrl url)) ".pdf") := by
    unfold isPdfResponse
    cases h1 : strContains (strLower resp.contentType) "pdf" <;>
      cases h2 : strEndsWith (strLower (rewriteUrl url)) ".pdf" <;> simp [h1, h2]
  refine ⟨?_, hrule⟩
  cases hp : isPdfResponse (some resp) (rewriteUrl url) with
  | true =>
    simp [processUrl, hv, hw, hp] at hr
    simp [← hr, hp]
  | false =>
    simp [processUrl, hv, hw, hp] at hr
    simp [← hr, hp]

/-- C3 amended, witness: the theorem applied to the redirected-PDF world. -/
theorem c3_pdf_routing_witness :
    (docRec.articleText = none ↔
      isPdfResponse (some respDoc) (rewriteUrl "http://h/doc.pdf") = true) ∧
    isPdfResponse (some respDoc) (rewriteUrl "http://h/doc.pdf") =
      (strContains (strLower respDoc.contentType) "pdf" ||
        strEndsWith (strLower (rewriteUrl "http://h/doc.pdf")) ".pdf") :=
  c3_pdf_routing wWrongPdf {} 2 "http://h/doc.pdf" "http://h/doc.pdf" 0 []
    respDoc docRec (by decide) rfl (by decide)

/-! ### C9 — HTML detection (corrected: `scraper.py` has no binary path) -/

/-- C9 counterexample: a PNG response (`image/png`, body without `<html`)
is not classified as PDF and fails the claim's HTML heuristic, yet
`scraper.py`'s `process_url` still treats it as HTML — the produced record
has the body text-extracted into `full_text`/`article_text` instead of the
response being written to disk as opaque binary. -/
theorem c9_scraper_treats_all_non_pdf_as_html :
    isPdfResponse (some respPng) (rewriteUrl "http://h/img") = false ∧
    isHtmlHeuristic (strLower respPng.contentType) "PNGDATA" = false ∧
    (processUrl wPng {} 3 "http://h/img" "http://h/img" 0 []).1 = some pngRec ∧
    pngRec.articleText = some "PNGDATA" := by
  refine ⟨by decide, by decide, by decide, rfl⟩

/-- C9 amended: in `scrape.py`'s `scrape_url_for_brain`, a fetched non-archive
URL is recorded as HTML (clean text extracted) if and only if the
content-type contains "text/html" or the first 500 characters of the body
contain `<html` case-insensitively; otherwise the body is written to disk
unmodified and recorded as binary.  (`scraper.py`, by contrast, has no such
check: every non-PDF response is treated as HTML — see the counterexample.) -/
theorem c9_scrape_html_detection (w : SWorld) (url : String) (resp : SResp)
    (ha : isArchiveSearch url = false) (hw : w url = some resp) :
    (isHtmlHeuristic (strLower resp.contentType) resp.text = true →
      scrapeUrlForBrain w url =
        .events [.append { url := url, status := "ok", typ := some "html",
                           ctHeader := some (strLower resp.contentType),
                           text := some resp.cleanText }]) ∧
    (isHtmlHeuristic (strLower resp.contentType) resp.text = false →
      scrapeUrlForBrain w url =
        .events [.writeFile url resp.text,
                 .append { url := url, status := "ok", typ := some "binary",
                           ctHeader := some (strLower resp.contentType) }]) := by
  constructor <;> intro h <;> simp [scrapeUrlForBrain, ha, hw, h]

/-- C9 amended, witness: the PNG URL of `swMix` goes down the binary path. -/
theorem c9_scrape_html_detection_witness :
    scrapeUrlForBrain swMix "http://h/p" =
      .events [.writeFile "http://h/p" "RAWPNGBYTES",
               .append { url := "http://h/p", status := "ok", typ := some "binary",
                         ctHeader := some "image/png" }] :=
  (c9_scrape_html_detection swMix "http://h/p" ⟨"Image/PNG", "RAWPNGBYTES", "clean"⟩
    (by decide) rfl).2 (by decide)

/-! ### Branch equations for `process_url` -/

/-- Already-visited task: nothing happens. -/
theorem processUrl_eq_visited (w : World) (c : Cfg) (fuel : Nat) (url root : String)
    (depth : Nat) (v : List String) (h : url ∈ v) :
    processUrl w c (fuel + 1) url root depth v = (none, v, []) := by
  simp [processUrl, h]

/-- Fetch-failure branch (`scraper.py:255-257`). -/
theorem processUrl_eq_fail (w : World) (c : Cfg) (fuel : Nat) (url root : String)
    (depth : Nat) (v : List String) (hv : url ∉ v) (hw : w (rewriteUrl url) = none) :
    processUrl w c (fuel + 1) url root depth v =
      (some (failRecOf url root), v ++ [url],
        [.fetch (rewriteUrl url), .record depth (failRecOf url root)]) := by
  simp [processUrl, hv, hw, failRecOf]

/-- PDF branch (`scraper.py:265-279`). -/
theorem processUrl_eq_pdf (w : World) (c : Cfg) (fuel : Nat) (url root : String)
    (depth : Nat) (v : List String) (resp : FetchOk) (hv : url ∉ v)
    (hw : w (rewriteUrl url) = some resp)
    (hp : isPdfResponse (some resp) (rewriteUrl url) = true) :
    processUrl w c (fuel + 1) url root depth v =
      (some (pdfRecOf url root resp), v ++ [url],
        [.fetch (rewriteUrl url), .record depth (pdfRecOf url root resp),
         .writeJson (pdfRecOf url root resp), .appendLog (pdfRecOf url root resp)]) := by
  simp [processUrl, hv, hw, hp, pdfRecOf]

/-- HTML branch with link-following disabled or the depth budget exhausted. -/
theorem processUrl_eq_html_nofollow (w : World) (c : Cfg) (fuel : Nat) (url root : String)
    (depth : Nat) (v : List String) (resp : FetchOk) (hv : url ∉ v)
    (hw : w (rewriteUrl url) = some resp)
    (hp : isPdfResponse (some resp) (rewriteUrl url) = false)
    (hf : ¬(c.followLinks = true ∧ depth < c.maxDepth)) :
    processUrl w c (fuel + 1) url root depth v =
      (some (htmlRecOf url root c resp none), v ++ [url],
        [.fetch (rewriteUrl url), .record depth (htmlRecOf url root c resp none),
         .writeJson (htmlRecOf url root c resp none),
         .appendLog (htmlRecOf url root c resp none)]) := by
  simp [processUrl, hv, hw, hp, hf, htmlRecOf]

/-- HTML branch with recursion into the discovered links. -/
theorem processUrl_eq_html_follow (w : World) (c : Cfg) (fuel : Nat) (url root : String)
    (depth : Nat) (v : List String) (resp : FetchOk) (hv : url ∉ v)
    (hw : w (rewriteUrl url) = some resp)
    (hp : isPdfResponse (some resp) (rewriteUrl url) = false)
    (hf : c.followLinks = true ∧ depth < c.maxDepth) :
    processUrl w c (fuel + 1) url root depth v =
      (let t := processChildren (fun l vis => processUrl w c fuel l root (depth + 1) vis)
          (fun l => !withinDomain c root l || binaryExtSkip l)
          ((discoverLinks resp.body resp.finalUrl).take c.maxLinksPerPage) (v ++ [url])
       (some (htmlRecOf url root c resp (some t.1)), t.2.1,
        [Ev.fetch (rewriteUrl url)] ++ t.2.2 ++
          [.record depth (htmlRecOf url root c resp (some t.1)),
           .writeJson (htmlRecOf url root c resp (some t.1)),
           .appendLog (htmlRecOf url root c resp (some t.1))])) := by
  simp [processUrl, hv, hw, hp, hf, htmlRecOf]

/-! ### C2 — visited-set dedup (corrected: keyed on the pre-rewrite URL) -/

/-- Record sources ignore fetch events. -/
theorem recordSources_cons_fetch (u : String) (evs : List Ev) :
    recordSources (Ev.fetch u :: evs) = recordSources evs := rfl

/-- Record sources distribute over appended traces. -/
theorem recordSources_append (e₁ e₂ : List Ev) :
    recordSources (e₁ ++ e₂) = recordSources e₁ ++ recordSources e₂ :=
  List.filterMap_append e₁ e₂ _

/-- Sequential composition preserves the dedup invariant. -/
theorem dedupInv_comp {v v₁ v₂ : List String} {e₁ e₂ : List Ev}
    (h1 : DedupInv v v₁ e₁) (h2 : DedupInv v₁ v₂ e₂) : DedupInv v v₂ (e₁ ++ e₂) := by
  obtain ⟨s1, n1, m1⟩ := h1
  obtain ⟨s2, n2, m2⟩ := h2
  refine ⟨s1.trans s2, ?_, ?_⟩
  · rw [recordSources_append]
    exact n1.append n2 (fun x hx1 hx2 => (m2 x hx2).1 ((m1 x hx1).2))
  · intro s hs
    rw [recordSources_append, List.mem_append] at hs
    rcases hs with hs | hs
    · exact ⟨(m1 s hs).1, s2 (m1 s hs).2⟩
    · exact ⟨fun hv => (m2 s hs).1 (s1 hv), (m2 s hs).2⟩

/-- The per-link loop preserves the dedup invariant whenever each step does. -/
theorem processChildren_dedupInv
    (step : String → List String → Option Rec × List String × List Ev)
    (skip : String → Bool)
    (H : ∀ l v₀, DedupInv v₀ (step l v₀).2.1 (step l v₀).2.2) :
    ∀ (ls : List String) (v : List String),
      DedupInv v (processChildren step skip ls v).2.1 (processChildren step skip ls v).2.2 := by
  intro ls
  induction ls with
  | nil => intro v; exact ⟨fun _ h => h, List.nodup_nil, by simp [processChildren, recordSources]⟩
  | cons l ls ih =>
    intro v
    by_cases h : skip l = true
    · simpa [processChildren, h] using ih v
    · have hs : processChildren step skip (l :: ls) v =
          ((if (step l v).1.isSome then (processChildren step skip ls (step l v).2.1).1 + 1
            else (processChildren step skip ls (step l v).2.1).1),
           (processChildren step skip ls (step l v).2.1).2.1,
           (step l v).2.2 ++ (processChildren step skip ls (step l v).2.1).2.2) := by
        simp [processChildren, h]
      rw [hs]
      exact dedupInv_comp (H l v) (ih (step l v).2.1)

/-- Leaf traces of the form `fetch; record r; (persist r)*` for a freshly
claimed `url` whose record sources are exactly `[url]` satisfy the invariant. -/
theorem dedupInv_leaf {v : List String} {url : String} (evs : List Ev)
    (hv : url ∉ v) (hs : recordSources evs = [url]) :
    DedupInv v (v ++ [url]) evs := by
  refine ⟨List.subset_append_left _ _, by rw [hs]; exact List.nodup_singleton url, ?_⟩
  intro s hsm
  rw [hs, List.mem_singleton] at hsm
  subst hsm
  exact ⟨hv, by simp⟩

/-- The dedup invariant holds for every (sub)crawl of `process_url`:
the visited set only grows, no two `record` events share a `source_url`,
and each recorded source URL was claimed during that subcrawl. -/
theorem processUrl_dedupInv (w : World) (c : Cfg) :
    ∀ (fuel : Nat) (url root : String) (depth : Nat) (v : List String),
      DedupInv v (processUrl w c fuel url root depth v).2.1
        (processUrl w c fuel url root depth v).2.2 := by
  intro fuel
  induction fuel with
  | zero =>
    intro url root depth v
    exact ⟨fun _ h => h, List.nodup_nil, by simp [processUrl, recordSources]⟩
  | succ f ih =>
    intro url root depth v
    by_cases hvis : url ∈ v
    · rw [processUrl_eq_visited w c f url root depth v hvis]
      exact ⟨fun _ h => h, List.nodup_nil, by simp [recordSources]⟩
    · cases hw : w (rewriteUrl url) with
      | none =>
        rw [processUrl_eq_fail w c f url root depth v hvis hw]
        exact dedupInv_leaf _ hvis rfl
      | some resp =>
        cases hp : isPdfResponse (some resp) (rewriteUrl url) with
        | true =>
          rw [processUrl_eq_pdf w c f url root depth v resp hvis hw hp]
          exact dedupInv_leaf _ hvis rfl
        | false =>
          by_cases hf : c.followLinks = true ∧ depth < c.maxDepth
          · rw [processUrl_eq_html_follow w c f url root depth v resp hvis hw hp hf]
            have hch := processChildren_dedupInv _
              (fun l => !withinDomain c root l || binaryExtSkip l)
              (fun l v₀ => ih l root (depth + 1) v₀)
              ((discoverLinks resp.body resp.finalUrl).take c.maxLinksPerPage) (v ++ [url])
            obtain ⟨sc, nc, mc⟩ := hch
            set t := processChildren (fun l vis => processUrl w c f l root (depth + 1) vis)
              (fun l => !withinDomain c root l || binaryExtSkip l)
              ((discoverLinks resp.body resp.finalUrl).take c.maxLinksPerPage) (v ++ [url]) with ht
            have hsrc : recordSources ([Ev.fetch (rewriteUrl url)] ++ t.2.2 ++
                [.record depth (htmlRecOf url root c resp (some t.1)),
                 .writeJson (htmlRecOf url root c resp (some t.1)),
                 .appendLog (htmlRecOf url root c resp (some t.1))]) =
                recordSources t.2.2 ++ [url] := by
              simp [recordSources_append, recordSources, htmlRecOf]
            refine ⟨(List.subset_append_left v [url]).trans sc, ?_, ?_⟩
            · rw [hsrc]
              refine (List.nodup_append).mpr ⟨nc, List.nodup_singleton url, ?_⟩
              intro x hx
              simp only [List.mem_singleton]
              intro hxu
              subst hxu
              exact (mc x hx).1 (by simp)
            · intro s hs
              rw [hsrc, List.mem_append, List.mem_singleton] at hs
              rcases hs with hs | hs
              · refine ⟨fun hvv => (mc s hs).1 (List.mem_append_left _ hvv), (mc s hs).2⟩
              · subst hs
                exact ⟨hvis, sc (by simp)⟩
          · rw [processUrl_eq_html_nofollow w c f url root depth v resp hvis hw hp hf]
            exact dedupInv_leaf _ hvis rfl

/-- C2 counterexample: on a root page linking both a GitHub `blob` URL and
its raw equivalent, the raw URL is fetched twice in one root crawl sharing
one visited set, and two records carry the same normalized (fetched) URL —
the visited set claims the pre-rewrite task URL, not the URL actually
fetched. -/
theorem c2_raw_url_fetched_twice :
    ((processUrl wBlob {} 5 "http://s/" "http://s/" 0 []).2.2.count (Ev.fetch rawU)) = 2 ∧
    ((processUrl wBlob {} 5 "http://s/" "http://s/" 0 []).2.2.countP
      (fun e => match e with | .record _ r => r.fetchedUrl == some rawU | _ => false)) = 2 := by
  refine ⟨by decide, by decide⟩

/-- C2 amended: dedup is keyed on the task URL as passed in (before the
GitHub blob→raw rewrite): within one root crawl sharing one visited set,
no two record events share a `source_url`, every recorded source URL was
absent from the visited set when claimed and is in it afterwards, and the
visited set only grows — but the rewritten URL that is actually fetched is
not itself claimed, so it can be fetched again (see the counterexample). -/
theorem c2_no_duplicate_records (w : World) (c : Cfg) (fuel : Nat) (url root : String)
    (depth : Nat) (v : List String) :
    (recordSources (processUrl w c fuel url root depth v).2.2).Nodup ∧
    (∀ s ∈ recordSources (processUrl w c fuel url root depth v).2.2,
      s ∉ v ∧ s ∈ (processUrl w c fuel url root depth v).2.1) ∧
    v ⊆ (processUrl w c fuel url root depth v).2.1 :=
  ⟨(processUrl_dedupInv w c fuel url root depth v).2.1,
   (processUrl_dedupInv w c fuel url root depth v).2.2,
   (processUrl_dedupInv w c fuel url root depth v).1⟩

/-- C2 amended, witness: in the blob/raw crawl the blob task URL is recorded
once, was not initially visited, and ends up claimed. -/
theorem c2_no_duplicate_records_witness :
    blobU ∉ ([] : List String) ∧
    blobU ∈ (processUrl wBlob {} 5 "http://s/" "http://s/" 0 []).2.1 :=
  (c2_no_duplicate_records wBlob {} 5 "http://s/" "http://s/" 0 []).2.1 blobU (by decide)

/-! ### C4 — the depth law -/

/-- The per-link loop only emits record events its steps emit. -/
theorem processChildren_record_bound
    (step : String → List String → Option Rec × List String × List Ev)
    (skip : String → Bool) (M : Nat)
    (H : ∀ l v₀ d r, Ev.record d r ∈ (step l v₀).2.2 → d ≤ M) :
    ∀ (ls : List String) (v : List String) (d : Nat) (r : Rec),
      Ev.record d r ∈ (processChildren step skip ls v).2.2 → d ≤ M := by
  intro ls
  induction ls with
  | nil => intro v d r h; simp [processChildren] at h
  | cons l ls ih =>
    intro v d r h
    by_cases hs : skip l = true
    · rw [show processChildren step skip (l :: ls) v = processChildren step skip ls v from by
        simp [processChildren, hs]] at h
      exact ih v d r h
    · simp only [processChildren, hs, Bool.false_eq_true, if_false, List.mem_append] at h
      rcases h with h | h
      · exact H l v d r h
      · exact ih _ d r h

/-- Every record event of a (sub)crawl started at `depth ≤ maxDepth` carries
a depth of at most `maxDepth`: recursion happens only under the
`depth < MAX_CRAWL_DEPTH` guard and children run at `depth + 1`. -/
theorem processUrl_depth_bound (w : World) (c : Cfg) :
    ∀ (fuel : Nat) (url root : String) (depth : Nat) (v : List String),
      depth ≤ c.maxDepth →
      ∀ d r, Ev.record d r ∈ (processUrl w c fuel url root depth v).2.2 → d ≤ c.maxDepth := by
  intro fuel
  induction fuel with
  | zero => intro url root depth v hd d r h; simp [processUrl] at h
  | succ f ih =>
    intro url root depth v hd d r h
    by_cases hvis : url ∈ v
    · rw [processUrl_eq_visited w c f url root depth v hvis] at h
      simp at h
    · cases hw : w (rewriteUrl url) with
      | none =>
        rw [processUrl_eq_fail w c f url root depth v hvis hw] at h
        simp at h
        omega
      | some resp =>
        cases hp : isPdfResponse (some resp) (rewriteUrl url) with
        | true =>
          rw [processUrl_eq_pdf w c f url root depth v resp hvis hw hp] at h
          simp at h
          omega
        | false =>
          by_cases hf : c.followLinks = true ∧ depth < c.maxDepth
          · rw [processUrl_eq_html_follow w c f url root depth v resp hvis hw hp hf] at h
            simp only [List.cons_append, List.nil_append, List.mem_cons, List.mem_append] at h
            rcases h with h | h | h
            · exact absurd h (by simp)
            · exact processChildren_record_bound _ _ c.maxDepth
                (fun l v₀ => ih l root (depth + 1) v₀ (by omega)) _ _ d r h
            · simp at h
              omega
          · rw [processUrl_eq_html_nofollow w c f url root depth v resp hvis hw hp hf] at h
            simp at h
            omega

/-- C4: in `main`'s crawl every seed is processed with `depth = 0` and with
itself as root (second conjunct, the unfolding of the seed loop), and no
record event of the whole crawl carries a depth exceeding
`MAX_CRAWL_DEPTH` (first conjunct). -/
theorem c4_depth_law :
    (∀ (w : World) (c : Cfg) (fuel : Nat) (urls : List String) (d : Nat) (r : Rec),
      Ev.record d r ∈ (mainCrawl w c fuel urls).2.2 → d ≤ c.maxDepth) ∧
    (∀ (w : World) (c : Cfg) (fuel : Nat) (u : String) (us : List String) (v : List String),
      mainAux w c fuel (u :: us) v =
        ((match (processUrl w c fuel u u 0 v).1 with
            | some r => [r]
            | none => []) ++ (mainAux w c fuel us (processUrl w c fuel u u 0 v).2.1).1,
         (mainAux w c fuel us (processUrl w c fuel u u 0 v).2.1).2.1,
         (processUrl w c fuel u u 0 v).2.2 ++
           (mainAux w c fuel us (processUrl w c fuel u u 0 v).2.1).2.2)) := by
  constructor
  · intro w c fuel urls
    suffices h : ∀ (us : List String) (v : List String) (d : Nat) (r : Rec),
        Ev.record d r ∈ (mainAux w c fuel us v).2.2 → d ≤ c.maxDepth by
      intro d r hm
      exact h urls [] d r hm
    intro us
    induction us with
    | nil => intro v d r h; simp [mainAux] at h
    | cons u us ih =>
      intro v d r h
      simp only [mainAux, List.mem_append] at h
      rcases h with h | h
      · exact processUrl_depth_bound w c fuel u u 0 v (Nat.zero_le _) d r h
      · exact ih _ d r h
  · intro w c fuel u us v
    rfl

/-- C4 witness: the failing seed produces a depth-0 record, within bound. -/
theorem c4_depth_law_witness :
    Ev.record 0 failRec ∈ (mainCrawl wAllFail {} 3 ["https://example.com/a"]).2.2 ∧
    (0 : Nat) ≤ ({} : Cfg).maxDepth :=
  ⟨by decide, c4_depth_law.1 wAllFail {} 3 ["https://example.com/a"] 0 failRec (by decide)⟩

/-! ### C5 — the article-extraction fallback order -/

/-- `maxLenOf` over a cons. -/
theorem maxLenOf_cons (t : String) (ts : List String) :
    maxLenOf (t :: ts) = max t.length (maxLenOf ts) := rfl

/-- The candidate fold computes the maximum length, and its second component
is either the initial value (when nothing beat it) or an element of the
list realizing that maximum. -/
theorem bestCandidate_go (ts : List String) :
    ∀ (n : Nat) (b : String),
      (ts.foldl (fun acc t => if t.length > acc.1 then (t.length, t) else acc) (n, b)).1 =
        max n (maxLenOf ts) ∧
      ((ts.foldl (fun acc t => if t.length > acc.1 then (t.length, t) else acc) (n, b)).2 = b ∧
        (ts.foldl (fun acc t => if t.length > acc.1 then (t.length, t) else acc) (n, b)).1 = n ∨
       ((ts.foldl (fun acc t => if t.length > acc.1 then (t.length, t) else acc) (n, b)).2 ∈ ts ∧
        (ts.foldl (fun acc t => if t.length > acc.1 then (t.length, t) else acc) (n, b)).2.length =
          (ts.foldl (fun acc t => if t.length > acc.1 then (t.length, t) else acc) (n, b)).1)) := by
  induction ts with
  | nil => intro n b; simp [maxLenOf]
  | cons t ts ih =>
    intro n b
    rw [maxLenOf_cons, List.foldl_cons]
    by_cases h : t.length > n
    · rw [if_pos h]
      obtain ⟨h1, h2⟩ := ih t.length t
      refine ⟨by rw [h1]; omega, ?_⟩
      rcases h2 with ⟨hb, hn⟩ | ⟨hm, hl⟩
      · exact Or.inr ⟨by rw [hb]; exact List.mem_cons_self t ts, by rw [hb, hn]⟩
      · exact Or.inr ⟨List.mem_cons_of_mem t hm, hl⟩
    · rw [if_neg h]
      obtain ⟨h1, h2⟩ := ih n b
      refine ⟨by rw [h1]; omega, ?_⟩
      rcases h2 with ⟨hb, hn⟩ | ⟨hm, hl⟩
      · exact Or.inl ⟨hb, hn⟩
      · exact Or.inr ⟨List.mem_cons_of_mem t hm, hl⟩

/-- The candidate loop's `best_len` is the maximum candidate length, and
when positive, `best` is a candidate of exactly that length. -/
theorem bestCandidate_spec (ts : List String) :
    (bestCandidate ts).1 = maxLenOf ts ∧
    (0 < maxLenOf ts →
      (bestCandidate ts).2 ∈ ts ∧ (bestCandidate ts).2.length = maxLenOf ts) := by
  obtain ⟨h1, h2⟩ := bestCandidate_go ts 0 ""
  have e1 : (bestCandidate ts).1 = maxLenOf ts := by
    unfold bestCandidate
    rw [h1]
    omega
  refine ⟨e1, fun hpos => ?_⟩
  rcases h2 with ⟨_, hn⟩ | ⟨hm, hl⟩
  · exfalso
    rw [h1] at hn
    omega
  · exact ⟨hm, by unfold bestCandidate; rw [hl, h1]; omega⟩

/-- C5: the ordered fallback of `extract_main_article_text`: the first
`<article>`'s text; else the first `<main>`'s text; else, when the best of
the (at most 40) `div`/`section`/`article`/`body` candidate texts exceeds
200 characters, a candidate text of maximal length; else the concatenation
of the first ≤ 50 non-empty `<p>` texts in document order; else the
full-page text. -/
theorem c5_article_fallback_order (soup : List HNode) :
    (∀ a, findTag "article" soup = some a → extractMainArticleText soup = nodeText a) ∧
    (findTag "article" soup = none →
      ∀ m, findTag "main" soup = some m → extractMainArticleText soup = nodeText m) ∧
    (findTag "article" soup = none → findTag "main" soup = none →
      200 < maxLenOf (candidateTexts soup) →
      extractMainArticleText soup ∈ candidateTexts soup ∧
      (extractMainArticleText soup).length = maxLenOf (candidateTexts soup)) ∧
    (findTag "article" soup = none → findTag "main" soup = none →
      maxLenOf (candidateTexts soup) ≤ 200 → pTexts soup ≠ [] →
      extractMainArticleText soup = String.join ((pTexts soup).take 50)) ∧
    (findTag "article" soup = none → findTag "main" soup = none →
      maxLenOf (candidateTexts soup) ≤ 200 → pTexts soup = [] →
      extractMainArticleText soup = listText soup) := by
  refine ⟨?_, ?_, ?_, ?_, ?_⟩
  · intro a ha
    simp [extractMainArticleText, ha]
  · intro h1 m hm
    simp [extractMainArticleText, h1, hm]
  · intro h1 h2 h3
    have hspec := bestCandidate_spec (candidateTexts soup)
    have hcond : (bestCandidate (candidateTexts soup)).1 > 200 := by
      rw [hspec.1]
      exact h3
    have hx : extractMainArticleText soup = (bestCandidate (candidateTexts soup)).2 := by
      simp only [extractMainArticleText, h1, h2]
      rw [if_pos hcond]
    rw [hx]
    exact hspec.2 (by omega)
  · intro h1 h2 h3 h4
    have hcond : ¬((bestCandidate (candidateTexts soup)).1 > 200) := by
      rw [(bestCandidate_spec (candidateTexts soup)).1]
      omega
    have hps : (allTags ["p"] soup).isEmpty = false := by
      cases hh : allTags ["p"] soup with
      | nil => exact absurd (by simp [pTexts, hh]) h4
      | cons a l => rfl
    have hts : (pTexts soup).isEmpty = false := by
      cases hh : pTexts soup with
      | nil => exact absurd hh h4
      | cons a l => rfl
    simp only [extractMainArticleText, h1, h2]
    rw [if_neg hcond]
    simp [hps, hts]
  · intro h1 h2 h3 h4
    have hcond : ¬((bestCandidate (candidateTexts soup)).1 > 200) := by
      rw [(bestCandidate_spec (candidateTexts soup)).1]
      omega
    simp only [extractMainArticleText, h1, h2]
    rw [if_neg hcond]
    by_cases hps : (allTags ["p"] soup).isEmpty
    · simp [hps]
    · simp [hps, h4]

/-- C5 witness: on a paragraphs-only document the extraction equals the
concatenation of its non-empty paragraph texts. -/
theorem c5_article_fallback_order_witness :
    extractMainArticleText soupPs = String.join ((pTexts soupPs).take 50) :=
  (c5_article_fallback_order soupPs).2.2.2.1 rfl rfl (by decide) (by decide)

/-! ### C6 — pagination termination (corrected: zero items, not zero *new* items) -/

/-- Membership in the new items of a page. -/
theorem mem_newOnes : ∀ (l seen : List String) (x : String),
    x ∈ newOnes l seen ↔ x ∈ l ∧ x ∉ seen := by
  intro l
  induction l with
  | nil => intro seen x; simp [newOnes]
  | cons u rest ih =>
    intro seen x
    by_cases hu : u ∈ seen
    · rw [show newOnes (u :: rest) seen = newOnes rest seen from by simp [newOnes, hu]]
      rw [ih seen x]
      constructor
      · rintro ⟨hx, hn⟩
        exact ⟨List.mem_cons_of_mem _ hx, hn⟩
      · rintro ⟨hx, hn⟩
        rcases List.mem_cons.mp hx with rfl | hx
        · exact absurd hu hn
        · exact ⟨hx, hn⟩
    · rw [show newOnes (u :: rest) seen = u :: newOnes rest (seen ++ [u]) from by
        simp [newOnes, hu]]
      rw [List.mem_cons, ih (seen ++ [u]) x]
      constructor
      · rintro (rfl | ⟨hx, hn⟩)
        · exact ⟨List.mem_cons_self _ _, hu⟩
        · exact ⟨List.mem_cons_of_mem _ hx, fun hs => hn (List.mem_append_left _ hs)⟩
      · rintro ⟨hx, hn⟩
        by_cases hxu : x = u
        · exact Or.inl hxu
        · rcases List.mem_cons.mp hx with rfl | hx
          · exact Or.inl rfl
          · refine Or.inr ⟨hx, fun hs => ?_⟩
            rcases List.mem_append.mp hs with hs | hs
            · exact hn hs
            · exact hxu (List.mem_singleton.mp hs)

/-- The new items of a page are pairwise distinct. -/
theorem nodup_newOnes : ∀ (l seen : List String), (newOnes l seen).Nodup := by
  intro l
  induction l with
  | nil => intro seen; simp [newOnes]
  | cons u rest ih =>
    intro seen
    by_cases hu : u ∈ seen
    · rw [show newOnes (u :: rest) seen = newOnes rest seen from by simp [newOnes, hu]]
      exact ih seen
    · rw [show newOnes (u :: rest) seen = u :: newOnes rest (seen ++ [u]) from by
        simp [newOnes, hu]]
      refine List.nodup_cons.mpr ⟨fun hmem => ?_, ih _⟩
      exact ((mem_newOnes rest (seen ++ [u]) u).mp hmem).2 (by simp)

/-- The inner item loop, when the quota is not hit, scrapes exactly the new
items of the page, in order, and adds them to `seen_items`. -/
theorem processItems_eq (maxItems : Nat) :
    ∀ (its : List String) (scraped : Nat) (seen acc : List String),
      scraped + (newOnes its seen).length ≤ maxItems →
      processItems maxItems its scraped seen acc =
        (scraped + (newOnes its seen).length, seen ++ newOnes its seen,
          acc ++ newOnes its seen) := by
  intro its
  induction its with
  | nil => intro scraped seen acc h; simp [processItems, newOnes]
  | cons u rest ih =>
    intro scraped seen acc h
    by_cases hu : u ∈ seen
    · have he : newOnes (u :: rest) seen = newOnes rest seen := by simp [newOnes, hu]
      rw [he] at h ⊢
      by_cases hq : maxItems ≤ scraped
      · have hnil : newOnes rest seen = [] := by
          have : (newOnes rest seen).length = 0 := by omega
          exact List.length_eq_zero.mp this
        rw [show processItems maxItems (u :: rest) scraped seen acc = (scraped, seen, acc) from by
          simp [processItems, hq]]
        simp [hnil]
      · rw [show processItems maxItems (u :: rest) scraped seen acc =
            processItems maxItems rest scraped seen acc from by simp [processItems, hq, hu]]
        exact ih scraped seen acc h
    · have he : newOnes (u :: rest) seen = u :: newOnes rest (seen ++ [u]) := by
        simp [newOnes, hu]
      rw [he] at h ⊢
      rw [List.length_cons] at h
      have hq : ¬(maxItems ≤ scraped) := by omega
      rw [show processItems maxItems (u :: rest) scraped seen acc =
          processItems maxItems rest (scraped + 1) (seen ++ [u]) (acc ++ [u]) from by
        simp [processItems, hq, hu]]
      rw [ih (scraped + 1) (seen ++ [u]) (acc ++ [u]) (by omega)]
      rw [Prod.ext_iff, Prod.ext_iff]
      refine ⟨by simp; omega, by simp, by simp⟩

/-- One loop iteration over a fetched page with at least one item link. -/
theorem archiveLoop_step (w : String → Option (List HNode)) (baseRoot baseQuery : String)
    (maxItems fuel page scraped : Nat) (seen acc : List String) (dom : List HNode)
    (hm : ¬(maxItems ≤ scraped)) (hw : w (pageUrl baseRoot baseQuery page) = some dom)
    (hne : itemLinksOf (anchorHrefs dom) ≠ []) :
    archiveLoop w baseRoot baseQuery maxItems (fuel + 1) page scraped seen acc =
      archiveLoop w baseRoot baseQuery maxItems fuel (page + 1)
        (processItems maxItems (itemLinksOf (anchorHrefs dom)) scraped seen acc).1
        (processItems maxItems (itemLinksOf (anchorHrefs dom)) scraped seen acc).2.1
        (processItems maxItems (itemLinksOf (anchorHrefs dom)) scraped seen acc).2.2 := by
  have hie : (itemLinksOf (anchorHrefs dom)).isEmpty = false := by
    cases hh : itemLinksOf (anchorHrefs dom) with
    | nil => exact absurd hh hne
    | cons a l => rfl
  simp [archiveLoop, hm, hw, hie]

/-- The loop stops, reporting `noItems`, on a fetched page with no item links. -/
theorem archiveLoop_stop_noItems (w : String → Option (List HNode)) (baseRoot baseQuery : String)
    (maxItems fuel page scraped : Nat) (seen acc : List String) (dom : List HNode)
    (hm : ¬(maxItems ≤ scraped)) (hw : w (pageUrl baseRoot baseQuery page) = some dom)
    (he : itemLinksOf (anchorHrefs dom) = []) :
    archiveLoop w baseRoot baseQuery maxItems (fuel + 1) page scraped seen acc =
      some (.noItems, scraped, acc) := by
  simp [archiveLoop, hm, hw, he]

/-- C6 counterexample: on a site whose every result page links the same
single item, page 2 already yields zero *new* item links (the claim's stop
condition) and the quota 2 is never reached — yet the loop is still
running after 10 pages: `scrape.py` stops only on a page with zero item
links at all (`if not item_links`), not zero new ones. -/
theorem c6_zero_new_items_does_not_stop :
    scrapeArchiveSearch wRepeat "https://archive.org/search?query=q" 2 10 = none ∧
    newOnes (itemLinksOf (anchorHrefs [.elem "a" [("href", "/details/A")] []]))
      ["https://archive.org/details/A"] = [] := by
  refine ⟨by decide, by decide⟩

/-- C6 amended: pages are enumerated by incrementing the `page` query
parameter from 1; the loop stops when a fetched page yields zero item
links *at all* (or on a page-fetch failure, or once the item quota is
reached).  In the spec's scenario — items on pages 1-2, none on page 3,
quota not reached — it stops after fetching page 3 having scraped,
exactly once each, the union of the unique item links of pages 1 and 2. -/
theorem c6_pagination_stop (w : String → Option (List HNode)) (baseRoot baseQuery : String)
    (maxItems : Nat) (d1 d2 d3 : List HNode)
    (h1 : w (pageUrl baseRoot baseQuery 1) = some d1)
    (h2 : w (pageUrl baseRoot baseQuery 2) = some d2)
    (h3 : w (pageUrl baseRoot baseQuery 3) = some d3)
    (hne1 : itemLinksOf (anchorHrefs d1) ≠ [])
    (hne2 : itemLinksOf (anchorHrefs d2) ≠ [])
    (he3 : itemLinksOf (anchorHrefs d3) = [])
    (hq : (newOnes (itemLinksOf (anchorHrefs d1)) []).length +
        (newOnes (itemLinksOf (anchorHrefs d2))
          (newOnes (itemLinksOf (anchorHrefs d1)) [])).length < maxItems) :
    ∀ fuel, 3 ≤ fuel →
      archiveLoop w baseRoot baseQuery maxItems fuel 1 0 [] [] =
        some (.noItems,
          (newOnes (itemLinksOf (anchorHrefs d1)) []).length +
            (newOnes (itemLinksOf (anchorHrefs d2))
              (newOnes (itemLinksOf (anchorHrefs d1)) [])).length,
          newOnes (itemLinksOf (anchorHrefs d1)) [] ++
            newOnes (itemLinksOf (anchorHrefs d2))
              (newOnes (itemLinksOf (anchorHrefs d1)) [])) ∧
      (newOnes (itemLinksOf (anchorHrefs d1)) [] ++
        newOnes (itemLinksOf (anchorHrefs d2))
          (newOnes (itemLinksOf (anchorHrefs d1)) [])).Nodup ∧
      (∀ x, x ∈ newOnes (itemLinksOf (anchorHrefs d1)) [] ++
          newOnes (itemLinksOf (anchorHrefs d2))
            (newOnes (itemLinksOf (anchorHrefs d1)) []) ↔
        x ∈ itemLinksOf (anchorHrefs d1) ∨ x ∈ itemLinksOf (anchorHrefs d2)) := by
  intro fuel hfuel
  obtain ⟨f, rfl⟩ : ∃ f, fuel = f + 3 := ⟨fuel - 3, by omega⟩
  refine ⟨?_, ?_, ?_⟩
  · have e1 : processItems maxItems (itemLinksOf (anchorHrefs d1)) 0 [] [] =
        ((newOnes (itemLinksOf (anchorHrefs d1)) []).length,
          newOnes (itemLinksOf (anchorHrefs d1)) [],
          newOnes (itemLinksOf (anchorHrefs d1)) []) := by
      have := processItems_eq maxItems (itemLinksOf (anchorHrefs d1)) 0 [] [] (by omega)
      simpa using this
    have e2 : processItems maxItems (itemLinksOf (anchorHrefs d2))
        (newOnes (itemLinksOf (anchorHrefs d1)) []).length
        (newOnes (itemLinksOf (anchorHrefs d1)) [])
        (newOnes (itemLinksOf (anchorHrefs d1)) []) =
        ((newOnes (itemLinksOf (anchorHrefs d1)) []).length +
          (newOnes (itemLinksOf (anchorHrefs d2))
            (newOnes (itemLinksOf (anchorHrefs d1)) [])).length,
         newOnes (itemLinksOf (anchorHrefs d1)) [] ++
           newOnes (itemLinksOf (anchorHrefs d2))
             (newOnes (itemLinksOf (anchorHrefs d1)) []),
         newOnes (itemLinksOf (anchorHrefs d1)) [] ++
           newOnes (itemLinksOf (anchorHrefs d2))
             (newOnes (itemLinksOf (anchorHrefs d1)) [])) :=
      processItems_eq maxItems _ _ _ _ (by omega)
    rw [show f + 3 = f + 2 + 1 from rfl,
      archiveLoop_step w baseRoot baseQuery maxItems (f + 2) 1 0 [] [] d1 (by omega) h1 hne1,
      e1,
      show f + 2 = f + 1 + 1 from rfl,
      archiveLoop_step w baseRoot baseQuery maxItems (f + 1) 2 _ _ _ d2 (by omega) h2 hne2,
      e2,
      show f + 1 = f + 0 + 1 from rfl,
      archiveLoop_stop_noItems w baseRoot baseQuery maxItems (f + 0) 3 _ _ _ d3 (by omega) h3 he3]
  · refine (nodup_newOnes _ []).append (nodup_newOnes _ _) ?_
    intro x hx1 hx2
    exact ((mem_newOnes _ _ x).mp hx2).2 hx1
  · intro x
    rw [List.mem_append, mem_newOnes, mem_newOnes]
    constructor
    · rintro (⟨hx, _⟩ | ⟨hx, _⟩)
      · exact Or.inl hx
      · exact Or.inr hx
    · rintro (hx | hx)
      · exact Or.inl ⟨hx, List.not_mem_nil x⟩
      · by_cases hn : x ∈ newOnes (itemLinksOf (anchorHrefs d1)) []
        · exact Or.inl ((mem_newOnes _ _ x).mp hn)
        · exact Or.inr ⟨hx, hn⟩

/-- C6 amended, witness: on the three-page world the loop stops at page 3
with the union of the unique items of pages 1-2. -/
theorem c6_pagination_stop_witness :
    archiveLoop wPages "https://archive.org/search" "query=q" 50 5 1 0 [] [] =
      some (.noItems,
        (newOnes (itemLinksOf (anchorHrefs dPage1)) []).length +
          (newOnes (itemLinksOf (anchorHrefs dPage2))
            (newOnes (itemLinksOf (anchorHrefs dPage1)) [])).length,
        newOnes (itemLinksOf (anchorHrefs dPage1)) [] ++
          newOnes (itemLinksOf (anchorHrefs dPage2))
            (newOnes (itemLinksOf (anchorHrefs dPage1)) [])) :=
  (c6_pagination_stop wPages "https://archive.org/search" "query=q" 50 dPage1 dPage2 dPage3
    rfl rfl rfl (by decide) (by decide) (by decide) (by decide) 5 (by omega)).1

end Chatbot
